import Mathlib

/-!
Verification of the ProLIF tutorial material: the `CloseContact` interaction
detector and the `get_ring_centroid` helper defined in the notebooks, together
with the fingerprint aggregation contract (registry of named detectors,
tabular export, bit-vector conversion, serialization) described by the spec.

Coordinates are modelled over `ℚ`.  The source compares Euclidean distances
`dist ≤ threshold`; since distances are non-negative this is equivalent to
`0 ≤ threshold ∧ dist² ≤ threshold²`, which avoids square roots while keeping
the comparison exact.
-/

/-- A residue identifier: chemical-group name, number and chain, e.g. `TYR 109 A`. -/
structure ResidueId where
  name : String
  number : Nat
  chain : String
deriving DecidableEq, Repr

/-- A 3D point with rational coordinates. -/
structure Point3 where
  x : ℚ
  y : ℚ
  z : ℚ
deriving DecidableEq, Repr

instance : Inhabited Point3 := ⟨⟨0, 0, 0⟩⟩

/-- Squared Euclidean distance between two points. -/
def sqDist (a b : Point3) : ℚ :=
  (a.x - b.x) ^ 2 + (a.y - b.y) ^ 2 + (a.z - b.z) ^ 2

/-- `dist(a,b) ≤ t`, expressed via squared distances:
for non-negative distances this holds iff `0 ≤ t ∧ dist² ≤ t²`. -/
def withinThreshold (t : ℚ) (a b : Point3) : Bool :=
  decide (0 ≤ t ∧ sqDist a b ≤ t ^ 2)

/-- A residue-like chemical group: an identifier and an optional array of atom
coordinates (`none` models missing coordinate data, whose access raises in the
source; a residue with no atoms has `xyz = some []`). -/
structure Residue where
  resid : ResidueId
  xyz : Option (List Point3)

deriving instance DecidableEq for Except

/-- All index pairs `(i, j)` with `i < n1`, `j < n2`, in row-major order —
the order in which `np.where` enumerates the true entries of an `n1 × n2`
boolean mask. -/
def pairIndices (n1 n2 : Nat) : List (Nat × Nat) :=
  (List.range n1).flatMap fun i => (List.range n2).map fun j => (i, j)

/-- Entry `(i, j)` of the boolean mask `distance_matrix(res1.xyz, res2.xyz) <= threshold`. -/
def closeMask (t : ℚ) (xs ys : List Point3) (i j : Nat) : Bool :=
  withinThreshold t (xs.getD i default) (ys.getD j default)

namespace CloseContact

/-- Embedding of `CloseContact.detect` from the how-to notebook:
build the distance matrix between the two residues' coordinates, mask it by
`<= threshold`; if any entry is true return `(True, res1_i[0], res2_i[0])`
where `(res1_i[0], res2_i[0])` is the first true entry in row-major order
(`np.where`), else return `(False, None, None)`.  Accessing missing
coordinate data raises, modelled by `Except.error`. -/
def detect (threshold : ℚ) (res1 res2 : Residue) :
    Except String (Bool × Option Nat × Option Nat) :=
  match res1.xyz, res2.xyz with
  | some xs, some ys =>
    match (pairIndices xs.length ys.length).find? (fun p => closeMask threshold xs ys p.1 p.2) with
    | some (i, j) => .ok (true, some i, some j)
    | none => .ok (false, none, none)
  | _, _ => .error "missing coordinate data"

end CloseContact

/-- Claim C1: whenever `CloseContact.detect` (the one detector implemented in
this material) returns a negative hit flag, both accompanying atom indices are
absent; it never returns a negative flag with exactly one index present. -/
theorem closecontact_negative_both_none
    (t : ℚ) (res1 res2 : Residue) (b : Bool) (i1 i2 : Option Nat)
    (h : CloseContact.detect t res1 res2 = .ok (b, i1, i2)) (hb : b = false) :
    i1 = none ∧ i2 = none := by
  subst hb
  unfold CloseContact.detect at h
  cases h1 : res1.xyz with
  | none => simp [h1] at h
  | some xs =>
    cases h2 : res2.xyz with
    | none => simp [h1, h2] at h
    | some ys =>
      simp only [h1, h2] at h
      cases hf : (pairIndices xs.length ys.length).find?
          (fun p => closeMask t xs ys p.1 p.2) with
      | none => simp only [hf] at h; cases h; exact ⟨rfl, rfl⟩
      | some p =>
        cases p with
        | mk i j => simp only [hf] at h; cases h

/-- A one-atom ligand residue at the origin. -/
def resLIG : Residue := ⟨⟨"LIG", 1, "G"⟩, some [⟨0, 0, 0⟩]⟩

/-- A one-atom protein residue at distance 1.8 from the origin. -/
def resASP : Residue := ⟨⟨"ASP", 129, "A"⟩, some [⟨9/5, 0, 0⟩]⟩

lemma find?_resLIG_resASP_pos :
    (pairIndices 1 1).find? (fun p => closeMask 2 [⟨0, 0, 0⟩] [⟨9/5, 0, 0⟩] p.1 p.2)
      = some (0, 0) := by
  rw [show pairIndices 1 1 = [(0, 0)] from rfl, List.find?_cons_of_pos]
  simp only [closeMask, withinThreshold, sqDist]
  norm_num

lemma find?_resLIG_resASP_neg :
    (pairIndices 1 1).find? (fun p => closeMask 1 [⟨0, 0, 0⟩] [⟨9/5, 0, 0⟩] p.1 p.2)
      = none := by
  rw [show pairIndices 1 1 = [(0, 0)] from rfl, List.find?_cons_of_neg, List.find?_nil]
  simp only [closeMask, withinThreshold, sqDist]
  norm_num

lemma detect_resLIG_resASP_pos :
    CloseContact.detect 2 resLIG resASP = .ok (true, some 0, some 0) := by
  simp only [CloseContact.detect, resLIG, resASP, List.length_cons, List.length_nil,
    Nat.zero_add, find?_resLIG_resASP_pos]

lemma detect_resLIG_resASP_neg :
    CloseContact.detect 1 resLIG resASP = .ok (false, none, none) := by
  simp only [CloseContact.detect, resLIG, resASP, List.length_cons, List.length_nil,
    Nat.zero_add, find?_resLIG_resASP_neg]

/-- Witness for C1: a concrete negative detection. -/
theorem closecontact_negative_both_none_witness :
    (none : Option Nat) = none ∧ (none : Option Nat) = none :=
  closecontact_negative_both_none 1 resLIG resASP false none none
    detect_resLIG_resASP_neg rfl

/-- Claim C2: with one atom pair at distance 1.8 Å, a `CloseContact` detector
with threshold 2.0 reports a positive hit with that pair's indices, while a
threshold of 1.0 reports a negative result with both indices absent. -/
theorem closecontact_example_thresholds :
    CloseContact.detect 2 resLIG resASP = .ok (true, some 0, some 0) ∧
    CloseContact.detect 1 resLIG resASP = .ok (false, none, none) :=
  ⟨detect_resLIG_resASP_pos, detect_resLIG_resASP_neg⟩

/-- Row-major (lexicographic) order on index pairs. -/
def lexLt (p q : Nat × Nat) : Prop :=
  p.1 < q.1 ∨ (p.1 = q.1 ∧ p.2 < q.2)

lemma pairIndices_succ (n1 n2 : Nat) :
    pairIndices (n1 + 1) n2 = pairIndices n1 n2 ++ (List.range n2).map fun j => (n1, j) := by
  simp [pairIndices, List.range_succ]

lemma mem_pairIndices {n1 n2 i j : Nat} :
    (i, j) ∈ pairIndices n1 n2 ↔ i < n1 ∧ j < n2 := by
  simp only [pairIndices, List.mem_flatMap, List.mem_map, List.mem_range, Prod.mk.injEq]
  constructor
  · rintro ⟨a, ha, b, hb, rfl, rfl⟩
    exact ⟨ha, hb⟩
  · rintro ⟨hi, hj⟩
    exact ⟨i, hi, j, hj, rfl, rfl⟩

lemma pairwise_pairIndices (n1 n2 : Nat) : (pairIndices n1 n2).Pairwise lexLt := by
  induction n1 with
  | zero => simp [pairIndices]
  | succ n ih =>
    rw [pairIndices_succ, List.pairwise_append]
    refine ⟨ih, ?_, ?_⟩
    · rw [List.pairwise_map]
      exact (List.pairwise_lt_range n2).imp fun h => Or.inr ⟨rfl, h⟩
    · intro a ha b hb
      obtain ⟨j, _, rfl⟩ := List.mem_map.1 hb
      obtain ⟨i', j'⟩ := a
      exact Or.inl (mem_pairIndices.1 ha).1

lemma find?_first {α : Type} {R : α → α → Prop} {p : α → Bool} :
    ∀ {l : List α}, l.Pairwise R → ∀ {a : α}, l.find? p = some a →
      ∀ b ∈ l, p b = true → a = b ∨ R a b := by
  intro l hl
  induction l with
  | nil => intro a h; simp at h
  | cons x xs ih =>
    intro a hfind b hb hpb
    rcases List.pairwise_cons.1 hl with ⟨hx, htl⟩
    cases hpx : p x with
    | true =>
      rw [List.find?_cons_of_pos _ hpx, Option.some.injEq] at hfind
      subst hfind
      rcases List.mem_cons.1 hb with rfl | hb'
      · exact Or.inl rfl
      · exact Or.inr (hx b hb')
    | false =>
      rw [List.find?_cons_of_neg _ (by simp [hpx])] at hfind
      rcases List.mem_cons.1 hb with rfl | hb'
      · rw [hpb] at hpx; cases hpx
      · exact ih htl hfind b hb' hpb

/-- Claim C3: when several atom pairs satisfy the `CloseContact` predicate, the
returned pair is the canonical first one: the row-major-first true entry of the
distance-matrix mask (every other satisfying pair is row-major later). -/
theorem closecontact_first_pair
    (t : ℚ) (res1 res2 : Residue) (xs ys : List Point3) (i j : Nat)
    (h1 : res1.xyz = some xs) (h2 : res2.xyz = some ys)
    (hd : CloseContact.detect t res1 res2 = .ok (true, some i, some j)) :
    closeMask t xs ys i j = true ∧
    ∀ i' j', i' < xs.length → j' < ys.length → closeMask t xs ys i' j' = true →
      i < i' ∨ (i = i' ∧ j ≤ j') := by
  unfold CloseContact.detect at hd
  simp only [h1, h2] at hd
  cases hf : (pairIndices xs.length ys.length).find?
      (fun p => closeMask t xs ys p.1 p.2) with
  | none => simp only [hf] at hd; simp at hd
  | some q =>
    obtain ⟨a, b⟩ := q
    simp only [hf, Except.ok.injEq, Prod.mk.injEq, Option.some.injEq, true_and] at hd
    obtain ⟨rfl, rfl⟩ := hd
    have hp : closeMask t xs ys a b = true := by simpa using List.find?_some hf
    refine ⟨hp, ?_⟩
    intro i' j' hi' hj' hm
    have hbmem : (i', j') ∈ pairIndices xs.length ys.length :=
      mem_pairIndices.2 ⟨hi', hj'⟩
    rcases find?_first (pairwise_pairIndices xs.length ys.length) hf (i', j') hbmem
        (by simpa using hm) with heq | hlt
    · obtain ⟨rfl, rfl⟩ := Prod.mk.injEq .. ▸ heq
      exact Or.inr ⟨rfl, le_refl _⟩
    · rcases hlt with h | ⟨h, h'⟩
      · exact Or.inl h
      · exact Or.inr ⟨h, le_of_lt h'⟩

/-- A two-atom ligand residue. -/
def resW1 : Residue := ⟨⟨"LIG", 1, "G"⟩, some [⟨0, 0, 0⟩, ⟨1, 0, 0⟩]⟩

/-- A two-atom protein residue with every cross pair within distance 2. -/
def resW2 : Residue := ⟨⟨"TYR", 109, "A"⟩, some [⟨0, 1, 0⟩, ⟨1, 1, 0⟩]⟩

lemma find?_resW_pos :
    (pairIndices 2 2).find?
      (fun p => closeMask 2 [⟨0, 0, 0⟩, ⟨1, 0, 0⟩] [⟨0, 1, 0⟩, ⟨1, 1, 0⟩] p.1 p.2)
      = some (0, 0) := by
  rw [show pairIndices 2 2 = [(0, 0), (0, 1), (1, 0), (1, 1)] from rfl,
    List.find?_cons_of_pos]
  simp only [closeMask, withinThreshold, sqDist]
  norm_num

lemma detect_resW :
    CloseContact.detect 2 resW1 resW2 = .ok (true, some 0, some 0) := by
  simp [CloseContact.detect, resW1, resW2, find?_resW_pos]

lemma closeMask_resW_11 :
    closeMask 2 [⟨0, 0, 0⟩, ⟨1, 0, 0⟩] [⟨0, 1, 0⟩, ⟨1, 1, 0⟩] 1 1 = true := by
  simp only [closeMask, withinThreshold, sqDist]
  norm_num

/-- Witness for C3: on a geometry where several pairs match, the returned pair
`(0, 0)` is row-major no later than the also-matching pair `(1, 1)`. -/
theorem closecontact_first_pair_witness :
    closeMask 2 [⟨0, 0, 0⟩, ⟨1, 0, 0⟩] [⟨0, 1, 0⟩, ⟨1, 1, 0⟩] 0 0 = true ∧
    (0 < 1 ∨ (0 = 1 ∧ 0 ≤ 1)) :=
  ⟨(closecontact_first_pair 2 resW1 resW2 _ _ 0 0 rfl rfl detect_resW).1,
   (closecontact_first_pair 2 resW1 resW2 _ _ 0 0 rfl rfl detect_resW).2
     1 1 (by decide) (by decide) closeMask_resW_11⟩

/-- Claim C9: `CloseContact.detect` is deterministic — it depends only on the
threshold parameter and the two residues' atom coordinates, so re-running it
on identical geometry (whatever the residue identifiers) gives an identical
hit flag and identical atom indices. -/
theorem closecontact_deterministic
    (t : ℚ) (res1 res2 res1' res2' : Residue)
    (h1 : res1.xyz = res1'.xyz) (h2 : res2.xyz = res2'.xyz) :
    CloseContact.detect t res1 res2 = CloseContact.detect t res1' res2' := by
  unfold CloseContact.detect
  rw [h1, h2]

/-- Witness for C9: two runs on the same geometry held by differently
identified residues agree. -/
theorem closecontact_deterministic_witness :
    CloseContact.detect 1 resLIG resASP =
      CloseContact.detect 1 ⟨⟨"LIG", 2, "B"⟩, some [⟨0, 0, 0⟩]⟩
        ⟨⟨"GLU", 77, "B"⟩, some [⟨9/5, 0, 0⟩]⟩ :=
  closecontact_deterministic 1 resLIG resASP _ _ rfl rfl

/-- Counterexample to claim C4 as stated: a residue with no atoms is NOT
surfaced as an error — `CloseContact.detect` silently absorbs it into a clean
negative result. -/
theorem closecontact_empty_residue_clean_negative :
    CloseContact.detect 2 ⟨⟨"GLY", 2, "A"⟩, some []⟩ resASP
      = .ok (false, none, none) := rfl

/-- Claim C4 (amended): missing coordinate data is surfaced to the caller as an
error; whenever both residues carry coordinate data — even a residue with no
atoms — `CloseContact.detect` returns a clean (non-error) result, negative
exactly when no qualifying atom pair exists. -/
theorem closecontact_malformed_input (t : ℚ) (res1 res2 : Residue) :
    ((res1.xyz = none ∨ res2.xyz = none) →
      ∃ e, CloseContact.detect t res1 res2 = .error e) ∧
    (∀ xs ys, res1.xyz = some xs → res2.xyz = some ys →
      ∃ r, CloseContact.detect t res1 res2 = .ok r) := by
  constructor
  · intro h
    unfold CloseContact.detect
    rcases h with h | h
    · rw [h]
      cases res2.xyz <;> exact ⟨_, rfl⟩
    · rw [h]
      cases res1.xyz <;> exact ⟨_, rfl⟩
  · intro xs ys hx hy
    unfold CloseContact.detect
    simp only [hx, hy]
    cases hf : (pairIndices xs.length ys.length).find?
        (fun p => closeMask t xs ys p.1 p.2) with
    | none => exact ⟨(false, none, none), by simp only [hf]⟩
    | some q =>
      obtain ⟨a, b⟩ := q
      exact ⟨(true, some a, some b), by simp only [hf]⟩

/-- A molecule as used by `get_ring_centroid`: ring membership information
(`GetRingInfo().AtomRings()`, a list of rings, each a list of atom indices)
and per-atom coordinates (`mol.xyz`). -/
structure Mol where
  rings : List (List Nat)
  xyz : List Point3

/-- Modelled from the spec: `plf.utils.get_centroid`, the centroid (arithmetic
mean) of a list of coordinates; its implementation is external to this
material. -/
def get_centroid (coords : List Point3) : Point3 :=
  ⟨((coords.map Point3.x).sum) / coords.length,
   ((coords.map Point3.y).sum) / coords.length,
   ((coords.map Point3.z).sum) / coords.length⟩

/-- Embedding of `get_ring_centroid` from the visualisation notebook: scan the
molecule's rings for the first one containing the given atom index (`for r in
ri.AtomRings(): if index in r: break`); if none contains it, raise `ValueError`
(the for-else); otherwise return the centroid of that ring's coordinates. -/
def get_ring_centroid (mol : Mol) (index : Nat) : Except String Point3 :=
  match mol.rings.find? (fun r => decide (index ∈ r)) with
  | none => .error "No ring containing this atom index was found in the given molecule"
  | some r => .ok (get_centroid (r.map fun i => mol.xyz.getD i default))

lemma find?_first_block {α : Type} (p : α → Bool) :
    ∀ (l1 : List α) (r : α) (l2 : List α), p r = true → (∀ x ∈ l1, p x = false) →
      (l1 ++ r :: l2).find? p = some r := by
  intro l1
  induction l1 with
  | nil =>
    intro r l2 hr _
    simpa using List.find?_cons_of_pos _ hr
  | cons x xs ih =>
    intro r l2 hr hall
    rw [List.cons_append,
      List.find?_cons_of_neg _ (by simp [hall x (by simp)])]
    exact ih r l2 hr fun y hy => hall y (by simp [hy])

/-- Claim C10: `get_ring_centroid` raises `ValueError` exactly when no ring of
the molecule contains the atom index; when a ring does, it returns the
centroid of the coordinates of the first such ring in the molecule's ring
enumeration, and does not raise. -/
theorem get_ring_centroid_spec (mol : Mol) (index : Nat) :
    ((∃ e, get_ring_centroid mol index = .error e) ↔ ∀ r ∈ mol.rings, index ∉ r) ∧
    (∀ l1 r l2, mol.rings = l1 ++ r :: l2 → index ∈ r → (∀ r' ∈ l1, index ∉ r') →
      get_ring_centroid mol index = .ok (get_centroid (r.map fun i => mol.xyz.getD i default))) := by
  constructor
  · unfold get_ring_centroid
    cases hf : mol.rings.find? (fun r => decide (index ∈ r)) with
    | none =>
      have hall := List.find?_eq_none.1 hf
      constructor
      · intro _ r hr
        simpa using hall r hr
      · intro _
        exact ⟨_, rfl⟩
    | some r =>
      have hmem := List.mem_of_find?_eq_some hf
      have hp : index ∈ r := by simpa using List.find?_some hf
      constructor
      · intro he
        obtain ⟨e, he⟩ := he
        simp at he
      · intro hall
        exact absurd hp (hall r hmem)
  · intro l1 r l2 hrings hr hl1
    unfold get_ring_centroid
    rw [hrings, find?_first_block _ l1 r l2 (by simpa using hr)
      (fun x hx => by simpa using hl1 x hx)]

/-- A concrete molecule with two rings. -/
def molW : Mol :=
  ⟨[[0, 1], [2, 3]], [⟨0, 0, 0⟩, ⟨2, 0, 0⟩, ⟨0, 2, 0⟩, ⟨2, 2, 0⟩]⟩

/-- Witness for C10: atom 2 lies in the second ring (and in no earlier ring),
so the centroid of ring `[2, 3]` is returned; atom 9 lies in no ring, so an
error is reported. -/
theorem get_ring_centroid_spec_witness :
    get_ring_centroid molW 2
      = .ok (get_centroid ([2, 3].map fun i => molW.xyz.getD i default)) ∧
    (∃ e, get_ring_centroid molW 9 = .error e) :=
  ⟨(get_ring_centroid_spec molW 2).2 [[0, 1]] [2, 3] [] rfl (by decide) (by decide),
   (get_ring_centroid_spec molW 9).1.mpr (by decide)⟩

/-- A detector as registered in the aggregator: a function of the two residues
returning the hit flag and the two optional atom indices. -/
def DetectorFun := Residue → Residue → Bool × Option Nat × Option Nat

/-- Modelled from the spec: the aggregator's registry of named interaction
detectors (the `Fingerprint` class's name-indexed detector registry is external
to this material). -/
def Registry := List (String × DetectorFun)

/-- Modelled from the spec: registering a detector under a name treats a name
collision as intentional overriding — the new detector completely replaces any
prior detector under that name. -/
def registerDetector (reg : Registry) (name : String) (d : DetectorFun) : Registry :=
  (name, d) :: reg.filter (fun q => decide (q.1 ≠ name))

/-- Look up the detector currently registered under a name. -/
def lookupDetector (reg : Registry) (name : String) : Option DetectorFun :=
  (reg.find? (fun q => decide (q.1 = name))).map Prod.snd

/-- Modelled from the spec: the single-pair evaluation entry point — evaluate
the detector registered under `name` on one residue pair. -/
def evalDetector (reg : Registry) (name : String) (res1 res2 : Residue) :
    Option (Bool × Option Nat × Option Nat) :=
  (lookupDetector reg name).map fun d => d res1 res2

lemma find?_filter_of_imp {α : Type} (p q : α → Bool)
    (h : ∀ a, p a = true → q a = true) :
    ∀ l : List α, (l.filter q).find? p = l.find? p := by
  intro l
  induction l with
  | nil => rfl
  | cons x xs ih =>
    cases hq : q x with
    | true =>
      rw [List.filter_cons_of_pos hq]
      cases hp : p x with
      | true => rw [List.find?_cons_of_pos _ hp, List.find?_cons_of_pos _ hp]
      | false =>
        rw [List.find?_cons_of_neg _ (by simp [hp]),
          List.find?_cons_of_neg _ (by simp [hp])]
        exact ih
    | false =>
      have hp : p x = false := by
        cases hpx : p x
        · rfl
        · exact absurd (h x hpx) (by simp [hq])
      rw [List.filter_cons_of_neg (by simp [hq]), List.find?_cons_of_neg _ (by simp [hp])]
      exact ih

/-- Claim C5: registering a detector under an already-registered name
completely replaces the prior one — every subsequent evaluation under that
name uses only the new detector's behaviour, and lookups under any other name
are unaffected. -/
theorem register_overrides (reg : Registry) (name : String) (d : DetectorFun)
    (res1 res2 : Residue) :
    evalDetector (registerDetector reg name d) name res1 res2 = some (d res1 res2) ∧
    ∀ m, m ≠ name →
      lookupDetector (registerDetector reg name d) m = lookupDetector reg m := by
  constructor
  · unfold evalDetector lookupDetector registerDetector
    rw [List.find?_cons_of_pos _ (by simp)]
    rfl
  · intro m hm
    unfold lookupDetector registerDetector
    rw [List.find?_cons_of_neg _ (by
        simp only [decide_eq_true_eq]
        exact fun h => hm h.symm),
      find?_filter_of_imp _ _ (fun a ha => by
        simp only [decide_eq_true_eq] at ha
        simp only [ne_eq, decide_not, Bool.not_eq_true', decide_eq_false_iff_not]
        exact fun hq => hm (hq ▸ ha).symm)]

/-- The prior hydrophobic detector of the override example. -/
def hydroOld : DetectorFun := fun _ _ => (true, some 0, some 0)

/-- The replacing hydrophobic detector of the override example. -/
def hydroNew : DetectorFun := fun _ _ => (false, none, none)

/-- Witness for C5: after overriding `Hydrophobic`, evaluation under that name
returns the new detector's result, and an unrelated name is unaffected. -/
theorem register_overrides_witness :
    evalDetector (registerDetector [("Hydrophobic", hydroOld)] "Hydrophobic" hydroNew)
        "Hydrophobic" resLIG resASP = some (hydroNew resLIG resASP) ∧
    lookupDetector (registerDetector [("Hydrophobic", hydroOld)] "Hydrophobic" hydroNew)
        "CustomHydrophobic" = lookupDetector [("Hydrophobic", hydroOld)] "CustomHydrophobic" :=
  ⟨(register_overrides [("Hydrophobic", hydroOld)] "Hydrophobic" hydroNew resLIG resASP).1,
   (register_overrides [("Hydrophobic", hydroOld)] "Hydrophobic" hydroNew resLIG resASP).2
     "CustomHydrophobic" (by decide)⟩

/-- One stored detection: the residue pair, the interaction name and the
boolean hit flag. -/
structure Detection where
  lig : ResidueId
  prot : ResidueId
  interaction : String
  value : Bool
deriving DecidableEq, Repr

/-- Modelled from the spec: the accumulated state of a fingerprint run — the
registered interaction names and, per frame, the list of detections. -/
structure FPResult where
  interactions : List String
  ifp : List (List Detection)

/-- Modelled from the spec: the bulk entry point of the aggregator — for every
frame, evaluate every registered detector on every residue pair of that frame,
storing one boolean detection per (ligand residue, protein residue,
interaction name). -/
def runFrames (reg : Registry) (frames : List (List (Residue × Residue))) : FPResult :=
  { interactions := reg.map Prod.fst,
    ifp := frames.map fun pairs =>
      pairs.flatMap fun q =>
        reg.map fun nd => ⟨q.1.resid, q.2.resid, nd.1, (nd.2 q.1 q.2).1⟩ }

/-- The residue-id pairs recorded in a stored run, deduplicated. -/
def FPResult.residPairs (r : FPResult) : List (ResidueId × ResidueId) :=
  (r.ifp.flatMap fun f => f.map fun d => (d.lig, d.prot)).dedup

/-- The residue-id pairs encountered during a run over the given frames. -/
def framePairs (frames : List (List (Residue × Residue))) :
    List (ResidueId × ResidueId) :=
  frames.flatMap fun pairs => pairs.map fun q => (q.1.resid, q.2.resid)

/-- A column key of the exported table: the (ligand residue, protein residue,
interaction name) triple. -/
structure ColKey where
  lig : ResidueId
  prot : ResidueId
  interaction : String
deriving DecidableEq, Repr

/-- The boolean cell of one frame at one column: true when the frame holds a
positive detection with that column's triple. -/
def cellValue (frame : List Detection) (c : ColKey) : Bool :=
  frame.any fun d =>
    decide (d.lig = c.lig ∧ d.prot = c.prot ∧ d.interaction = c.interaction) && d.value

/-- The exported table: a stable column list and one boolean row per frame. -/
structure DataFrame where
  columns : List ColKey
  rows : List (ColKey → Bool)

/-- Modelled from the spec: `Fingerprint.to_dataframe` — project the stored
run into a table with one row per frame and one column per (ligand residue,
protein residue, interaction name) triple; with `drop_empty` (the default)
only columns holding at least one true cell are retained. -/
def toDataframe (dropEmpty : Bool) (r : FPResult) : DataFrame :=
  let cands := r.residPairs.flatMap fun lp => r.interactions.map fun n => ⟨lp.1, lp.2, n⟩
  { columns :=
      if dropEmpty then cands.filter (fun c => r.ifp.any fun f => cellValue f c) else cands,
    rows := r.ifp.map fun f => fun c => cellValue f c }

/-- Claim C6: the exported table's column set is contained in the cross product
of the registered interaction names with the residue-id pairs encountered
during the run, and with `drop_empty` every retained column has at least one
true cell across the frames. -/
theorem to_dataframe_columns (b : Bool) (reg : Registry)
    (frames : List (List (Residue × Residue))) :
    ∀ c ∈ (toDataframe b (runFrames reg frames)).columns,
      ((c.lig, c.prot) ∈ framePairs frames ∧ c.interaction ∈ reg.map Prod.fst) ∧
      (b = true → (runFrames reg frames).ifp.any (fun f => cellValue f c) = true) := by
  intro c hc
  have hcand : c ∈ (runFrames reg frames).residPairs.flatMap
        (fun lp => (runFrames reg frames).interactions.map fun n => ⟨lp.1, lp.2, n⟩) ∧
      (b = true → (runFrames reg frames).ifp.any (fun f => cellValue f c) = true) := by
    unfold toDataframe at hc
    cases b with
    | false =>
      simp only [if_neg Bool.false_ne_true] at hc
      exact ⟨hc, fun h => absurd h Bool.false_ne_true⟩
    | true =>
      simp only [if_pos rfl] at hc
      have := List.mem_filter.1 hc
      exact ⟨this.1, fun _ => this.2⟩
  refine ⟨?_, hcand.2⟩
  obtain ⟨lp, hlp, n, hn, hceq⟩ := by
    simpa only [List.mem_flatMap, List.mem_map] using hcand.1
  have hclig : c.lig = lp.1 ∧ c.prot = lp.2 ∧ c.interaction = n := by
    rw [← hceq]; exact ⟨rfl, rfl, rfl⟩
  obtain ⟨h1, h2, h3⟩ := hclig
  constructor
  · rw [h1, h2]
    have hlp' := List.mem_dedup.1 hlp
    obtain ⟨f, hf, d, hd, hdeq⟩ := by
      simpa only [FPResult.residPairs, List.mem_flatMap, List.mem_map] using hlp'
    obtain ⟨pairs, hpairs, rfl⟩ := by
      simpa only [runFrames, List.mem_map] using hf
    obtain ⟨q, hq, nd, hnd, rfl⟩ := by
      simpa only [List.mem_flatMap, List.mem_map] using hd
    simp only [framePairs, List.mem_flatMap, List.mem_map]
    refine ⟨pairs, hpairs, q, hq, ?_⟩
    rw [← hdeq]
  · rw [h3]
    simpa only [runFrames] using hn

/-- A demonstration registry with a single constant-positive detector. -/
def regW : Registry := [("CC", fun _ _ => (true, some 0, some 0))]

/-- A demonstration trajectory: one frame holding one residue pair. -/
def framesW : List (List (Residue × Residue)) := [[(resLIG, resASP)]]

/-- Witness for C6: the one retained column of a one-detector, one-pair run
lies in the cross product and has a true cell. -/
theorem to_dataframe_columns_witness :
    (((⟨"LIG", 1, "G"⟩, ⟨"ASP", 129, "A"⟩) : ResidueId × ResidueId) ∈ framePairs framesW ∧
      "CC" ∈ regW.map Prod.fst) ∧
    (true = true → (runFrames regW framesW).ifp.any
      (fun f => cellValue f ⟨⟨"LIG", 1, "G"⟩, ⟨"ASP", 129, "A"⟩, "CC"⟩) = true) :=
  to_dataframe_columns true regW framesW ⟨⟨"LIG", 1, "G"⟩, ⟨"ASP", 129, "A"⟩, "CC"⟩
    (by decide)

/-- Modelled from the spec: `plf.to_bitvectors` — one bit per table column, in
the table's stable column order, one bit-vector per row. -/
def to_bitvectors (df : DataFrame) : List (List Bool) :=
  df.rows.map fun row => df.columns.map row

lemma map_rows_congr (cols : List ColKey) :
    ∀ l1 l2 : List (ColKey → Bool), l1.length = l2.length →
      (∀ p ∈ l1.zip l2, ∀ c ∈ cols, p.1 c = p.2 c) →
      l1.map (fun row => cols.map row) = l2.map (fun row => cols.map row) := by
  intro l1
  induction l1 with
  | nil =>
    intro l2 hlen _
    rw [List.length_nil] at hlen
    rw [(List.length_eq_zero.1 hlen.symm)]
  | cons a l1' ih =>
    intro l2 hlen hcell
    cases l2 with
    | nil => simp at hlen
    | cons b l2' =>
      simp only [List.map_cons, List.cons.injEq]
      constructor
      · exact List.map_congr_left fun c hc => hcell (a, b) (by simp [List.zip_cons_cons]) c hc
      · exact ih l2' (by simpa using hlen)
          fun p hp c hc => hcell p (by simp [List.zip_cons_cons, hp]) c hc

/-- Claim C7: two tables sharing the same column universe (same columns in the
same stable order) whose boolean cells agree on every row produce identical
bit-vectors for corresponding rows. -/
theorem to_bitvectors_eq (t1 t2 : DataFrame)
    (hc : t1.columns = t2.columns) (hn : t1.rows.length = t2.rows.length)
    (hcell : ∀ p ∈ t1.rows.zip t2.rows, ∀ c ∈ t1.columns, p.1 c = p.2 c) :
    to_bitvectors t1 = to_bitvectors t2 := by
  unfold to_bitvectors
  rw [← hc]
  exact map_rows_congr t1.columns t1.rows t2.rows hn hcell

/-- A demonstration column key. -/
def colW : ColKey := ⟨⟨"LIG", 1, "G"⟩, ⟨"ASP", 129, "A"⟩, "CC"⟩

/-- First demonstration table: one column, one constant-true row. -/
def tableW1 : DataFrame := ⟨[colW], [fun _ => true]⟩

/-- Second demonstration table: same column, a row true exactly on that
column (so both tables agree on every cell of the column universe). -/
def tableW2 : DataFrame := ⟨[colW], [fun c => decide (c = colW)]⟩

/-- Witness for C7: the two demonstration tables share columns and cells, and
their bit-vectors coincide. -/
theorem to_bitvectors_eq_witness : to_bitvectors tableW1 = to_bitvectors tableW2 :=
  to_bitvectors_eq tableW1 tableW2 rfl rfl
    (by
      intro p hp c hc
      simp only [tableW1, tableW2, List.zip_cons_cons, List.zip_nil_right,
        List.mem_singleton] at hp hc
      rw [hp, hc]
      decide)

/-- A generic serialized value: the opaque pickled form. -/
inductive PValue where
  | nat : Nat → PValue
  | str : String → PValue
  | bool : Bool → PValue
  | list : List PValue → PValue

/-- Serialize a residue identifier. -/
def encodeRid (r : ResidueId) : PValue :=
  .list [.str r.name, .nat r.number, .str r.chain]

/-- Deserialize a residue identifier. -/
def decodeRid : PValue → Option ResidueId
  | .list [.str n, .nat num, .str c] => some ⟨n, num, c⟩
  | _ => none

/-- Serialize one detection record. -/
def encodeDet (d : Detection) : PValue :=
  .list [encodeRid d.lig, encodeRid d.prot, .str d.interaction, .bool d.value]

/-- Deserialize one detection record. -/
def decodeDet : PValue → Option Detection
  | .list [pl, pp, .str n, .bool v] => do
    let l ← decodeRid pl
    let p ← decodeRid pp
    some ⟨l, p, n, v⟩
  | _ => none

/-- Deserialize a list of serialized values element-wise, failing if any
element fails. -/
def decodeListWith {α : Type} (dec : PValue → Option α) : List PValue → Option (List α)
  | [] => some []
  | v :: vs => do
    let a ← dec v
    let as ← decodeListWith dec vs
    some (a :: as)

/-- Modelled from the spec: `Fingerprint.to_pickle` — serialize the aggregator
state (registered interaction names and accumulated per-frame detections) to
an opaque value, without the exported table itself. -/
def to_pickle (r : FPResult) : PValue :=
  .list [.list (r.interactions.map .str),
         .list (r.ifp.map fun f => .list (f.map encodeDet))]

/-- Modelled from the spec: `Fingerprint.from_pickle` — reload a serialized
aggregator state. -/
def from_pickle : PValue → Option FPResult
  | .list [.list names, .list frames] => do
    let ns ← decodeListWith (fun v => match v with | .str s => some s | _ => none) names
    let fs ← decodeListWith (fun v => match v with
        | .list ds => decodeListWith decodeDet ds
        | _ => none) frames
    some ⟨ns, fs⟩
  | _ => none

lemma decodeRid_encodeRid (r : ResidueId) : decodeRid (encodeRid r) = some r := by
  cases r
  rfl

lemma decodeDet_encodeDet (d : Detection) : decodeDet (encodeDet d) = some d := by
  obtain ⟨l, p, n, v⟩ := d
  cases l
  cases p
  rfl

lemma decodeListWith_map {α : Type} (dec : PValue → Option α) (enc : α → PValue)
    (h : ∀ a, dec (enc a) = some a) :
    ∀ l : List α, decodeListWith dec (l.map enc) = some l := by
  intro l
  induction l with
  | nil => rfl
  | cons a as ih => simp [decodeListWith, h, ih]

/-- Claim C8: serializing the aggregator state after a run and reloading it
succeeds and yields a state whose exported table (at either `drop_empty`
setting) is identical to the one the original state exports — no re-detection
is needed. -/
theorem pickle_roundtrip_table (r : FPResult) (b : Bool) :
    ∃ r', from_pickle (to_pickle r) = some r' ∧ toDataframe b r' = toDataframe b r := by
  refine ⟨r, ?_, rfl⟩
  obtain ⟨ns, fs⟩ := r
  have h1 : decodeListWith (fun v => match v with | .str s => some s | _ => none)
      (ns.map PValue.str) = some ns :=
    decodeListWith_map (fun v => match v with | .str s => some s | _ => none)
      PValue.str (fun _ => rfl) ns
  have h2 : decodeListWith (fun v => match v with
        | .list ds => decodeListWith decodeDet ds
        | _ => none)
      (fs.map fun f => PValue.list (f.map encodeDet)) = some fs :=
    decodeListWith_map (fun v => match v with
        | .list ds => decodeListWith decodeDet ds
        | _ => none)
      (fun f => PValue.list (f.map encodeDet))
      (fun f => decodeListWith_map decodeDet encodeDet decodeDet_encodeDet f) fs
  simp [to_pickle, from_pickle, h1, h2]

/-- Witness for the amended C4: a residue with missing coordinate data errors,
and a well-formed pair yields a clean result. -/
theorem closecontact_malformed_input_witness :
    (∃ e, CloseContact.detect 1 ⟨⟨"UNK", 1, "A"⟩, none⟩ resASP = .error e) ∧
    (∃ r, CloseContact.detect 1 resLIG resASP = .ok r) :=
  ⟨(closecontact_malformed_input 1 ⟨⟨"UNK", 1, "A"⟩, none⟩ resASP).1 (Or.inl rfl),
   (closecontact_malformed_input 1 resLIG resASP).2 [⟨0, 0, 0⟩] [⟨9/5, 0, 0⟩] rfl rfl⟩
